import Mathlib

/-!
Verification of the license-plate OCR decision pipeline of the
Smart-Traffic-Detection-System repository (backend/routes/ocr.py and
backend/utils/plate_detector.py), as a shallow embedding.

Modelling conventions:
* Python strings are `List Char` (`Text`); `str.upper` is `Char.toUpper`
  per character, `str.isalnum`/`isalpha`/`isdigit` are the corresponding
  ASCII `Char` predicates.
* Python floats are exact rationals `ℚ`; `int(x)` is truncation toward
  zero (`pyInt`).  All score contributions in the source are integer
  valued, so no rounding issue arises in the scorer; the consensus
  percentage comparisons in the source (`>= 50`) are far enough from the
  float rounding error that the rational model is faithful.
* The module-level dict `_temporal_votes` (a `defaultdict(list)`) is a
  total map `VoteMap := String → List Text` defaulting to `[]`.
* The external engines (Gemini, EasyOCR) are black boxes: an `OcrInput`
  record carries the raw text the Gemini call produced (or `none` when
  the key is absent or the call raised) and the fragment lists EasyOCR
  would return on the plate crop and on the full image.
-/

abbrev Text := List Char

/-- `text.upper().replace(' ', '').replace('-', '')` — the normalization
used by `is_indian_plate` and `score_plate_candidate` (ocr.py lines 80, 98). -/
def clean_plate (t : Text) : Text :=
  (t.map Char.toUpper).filter (fun c => !(c = ' ' || c = '-'))

/-- `''.join(c for c in text.upper() if c.isalnum())` — the cleaning used on
OCR fragments (ocr.py line 270) and on the Gemini response (line 371). -/
def cleanAlnum (t : Text) : Text :=
  (t.map Char.toUpper).filter Char.isAlphanum

/-- `needle` occurs at the very start of `hay`. -/
def isPrefixList : Text → Text → Bool
  | [], _ => true
  | _ :: _, [] => false
  | a :: as, b :: bs => a = b && isPrefixList as bs

/-- Python `needle in hay`: substring containment. -/
def isSub (needle : Text) : Text → Bool
  | [] => isPrefixList needle []
  | c :: rest => isPrefixList needle (c :: rest) || isSub needle rest

/-- Number of (possibly overlapping) start positions at which `needle`
occurs in `hay`.  Used only to state the spec's per-occurrence reading of
the blocklist penalty (claim C3). -/
def countOcc (needle : Text) : Text → Nat
  | [] => if isPrefixList needle [] then 1 else 0
  | c :: rest => (if isPrefixList needle (c :: rest) then 1 else 0) + countOcc needle rest

/-- Consume exactly `n` characters satisfying `cls`, returning the rest. -/
def consumeN (cls : Char → Bool) : Nat → Text → Option Text
  | 0, s => some s
  | _ + 1, [] => none
  | n + 1, c :: rest => if cls c then consumeN cls n rest else none

/-- Anchored matcher for the fixed regular expressions of
`is_indian_plate`: a pattern is a sequence of `(lo, hi, cls)` tokens
meaning `cls{lo,hi}`; the whole input must be consumed (every source
pattern is of the shape `^...$`).  `re.match` semantics: a token may
match any repetition count in `[lo, hi]` (backtracking search). -/
def matchToks : List (Nat × Nat × (Char → Bool)) → Text → Bool
  | [], s => s.isEmpty
  | (lo, hi, cls) :: ts, s =>
      (List.range (hi + 1 - lo)).any fun k =>
        match consumeN cls (lo + k) s with
        | some rest => matchToks ts rest
        | none => false

/-- The four patterns of `is_indian_plate` (ocr.py lines 73-78):
`^[A-Z]{2}\d{2}[A-Z]{1,3}\d{1,4}$`, `^[A-Z]{2}\d{2}[A-Z]{2}\d{4}$`,
`^[A-Z]{2}\s?\d{2}\s?[A-Z]{1,3}\s?\d{1,4}$`, `^[A-Z]{2}\d{1,2}[A-Z]{1,3}\d{1,4}$`. -/
def indian_plate_toks : List (List (Nat × Nat × (Char → Bool))) :=
  [ [(2, 2, Char.isUpper), (2, 2, Char.isDigit), (1, 3, Char.isUpper), (1, 4, Char.isDigit)]
  , [(2, 2, Char.isUpper), (2, 2, Char.isDigit), (2, 2, Char.isUpper), (4, 4, Char.isDigit)]
  , [(2, 2, Char.isUpper), (0, 1, Char.isWhitespace), (2, 2, Char.isDigit),
     (0, 1, Char.isWhitespace), (1, 3, Char.isUpper), (0, 1, Char.isWhitespace),
     (1, 4, Char.isDigit)]
  , [(2, 2, Char.isUpper), (1, 2, Char.isDigit), (1, 3, Char.isUpper), (1, 4, Char.isDigit)] ]

/-- The 22 state codes checked by `is_indian_plate` (ocr.py lines 87-88). -/
def validator_state_codes : List Text :=
  ["MH", "DL", "KA", "TN", "AP", "TS", "UP", "RJ", "GJ", "MP", "WB",
   "PB", "HR", "UK", "JH", "BR", "OR", "CG", "AS", "KL", "GA", "HP"].map String.toList

/-- `is_indian_plate` (ocr.py lines 71-92): one of the fixed plate
grammars matches the cleaned text, or the text is at least 6 characters,
starts with a known state code and contains a digit. -/
def is_indian_plate (text : Text) : Bool :=
  let cleaned := clean_plate text
  indian_plate_toks.any (fun p => matchToks p cleaned) ||
    (decide (6 ≤ cleaned.length) && decide (cleaned.take 2 ∈ validator_state_codes) &&
      cleaned.any Char.isDigit)

/-- The blocklist of `score_plate_candidate` (ocr.py lines 126-128). -/
def bad_words : List Text :=
  ["PHONE", "CELL", "BATTERY", "WIFI", "SUZUKI", "MARUTI", "HONDA",
   "TOYOTA", "DIESEL", "PETROL", "INDIA", "CAR", "TRUCK", "BUS",
   "PERSON", "VEHICLE", "READING", "PLATE"].map String.toList

/-- The 13 state codes of the region-code bonus (ocr.py line 121). -/
def scorer_state_codes : List Text :=
  ["MH", "DL", "KA", "TN", "AP", "TS", "UP", "RJ", "GJ", "MP", "WB",
   "PB", "HR"].map String.toList

/-- Length bonus (ocr.py lines 104-108). -/
def length_bonus (cleaned : Text) : ℚ :=
  if 9 ≤ cleaned.length ∧ cleaned.length ≤ 11 then 30
  else if 6 ≤ cleaned.length ∧ cleaned.length ≤ 12 then 15
  else 0

/-- Composition bonus (ocr.py lines 110-114). -/
def composition_bonus (cleaned : Text) : ℚ :=
  if cleaned.any Char.isAlpha && cleaned.any Char.isDigit then 30 else 0

/-- Grammar bonus (ocr.py lines 116-118). -/
def grammar_bonus (cleaned : Text) : ℚ :=
  if is_indian_plate cleaned then 50 else 0

/-- Region-code bonus (ocr.py lines 120-123). -/
def region_code_bonus (cleaned : Text) : ℚ :=
  if 2 ≤ cleaned.length ∧ cleaned.take 2 ∈ scorer_state_codes then 40 else 0

/-- The blocklist loop of `score_plate_candidate` (ocr.py lines 129-131):
`for word in bad_words: if word in cleaned: score -= 100`. -/
def bad_word_fold (cleaned : Text) (s : ℚ) : ℚ :=
  bad_words.foldl (fun acc w => if isSub w cleaned then acc - 100 else acc) s

/-- `^(CAR|TRUCK|BUS|VEHICLE)\d+$` (ocr.py line 134). -/
def looks_like_track_label (cleaned : Text) : Bool :=
  (["CAR", "TRUCK", "BUS", "VEHICLE"].map String.toList).any fun w =>
    isPrefixList w cleaned &&
      (let rest := cleaned.drop w.length
       !rest.isEmpty && rest.all Char.isDigit)

/-- Track-label penalty (ocr.py lines 133-135). -/
def track_label_penalty (cleaned : Text) : ℚ :=
  if looks_like_track_label cleaned then -100 else 0

/-- `score_plate_candidate` (ocr.py lines 95-137).  The engine confidence
is not an argument: the `conf * 30` weighting is added by the caller
(ocr.py line 274). -/
def score_plate_candidate (text : Text) : ℚ :=
  let cleaned := clean_plate text
  if cleaned.length < 6 then -50
  else
    bad_word_fold cleaned
      (length_bonus cleaned + composition_bonus cleaned + grammar_bonus cleaned +
        region_code_bonus cleaned)
      + track_label_penalty cleaned

/-- The claim C3 reading of the blocklist step: −100 per *occurrence* of a
blocklisted word (overlapping occurrences of the same word all counted).
Modelled from the claim's words, for comparison with `bad_word_fold`. -/
def per_occurrence_penalty (cleaned : Text) : ℚ :=
  -100 * ((bad_words.map (fun w => countOcc w cleaned)).sum : ℚ)

/-! ## Temporal voting (ocr.py lines 33-175) -/

/-- `TEMPORAL_WINDOW = 10` (ocr.py line 35). -/
def TEMPORAL_WINDOW : Nat := 10

/-- The module-level `_temporal_votes = defaultdict(list)`: a total map
from track id to its vote buffer, absent buffers being `[]`. -/
abbrev VoteMap := String → List Text

/-- The last `n` elements of a list (Python `l[-n:]`). -/
def lastN (n : Nat) (l : List α) : List α := l.drop (l.length - n)

/-- The buffer update of `add_temporal_vote` (ocr.py lines 147-149):
append, then truncate to the last `TEMPORAL_WINDOW` entries. -/
def vote_append (buf : List Text) (plate : Text) : List Text :=
  let v := buf ++ [plate]
  if TEMPORAL_WINDOW < v.length then lastN TEMPORAL_WINDOW v else v

/-- `add_temporal_vote` (ocr.py lines 144-149): records only truthy
(non-empty) plate strings, into the buffer of the given track id. -/
def add_temporal_vote (st : VoteMap) (track : String) (plate : Text) : VoteMap :=
  if plate ≠ [] then
    fun t => if t = track then vote_append (st track) plate else st t
  else st

/-- Multiplicity of `x` in `l` (`Counter` count). -/
def countOf (l : List Text) (x : Text) : Nat := l.count x

/-- One step of the maximum-multiplicity scan: keep the current best
unless the new element's count is strictly larger. -/
def mc_step (cnt : Text → Nat) (best : Option (Text × Nat)) (v : Text) :
    Option (Text × Nat) :=
  match best with
  | none => some (v, cnt v)
  | some bc => if bc.2 < cnt v then some (v, cnt v) else some bc

/-- `Counter(votes).most_common(1)` (ocr.py lines 159-161): the element of
maximal multiplicity; on ties, `Counter` documents that elements with
equal counts are ordered in the order first encountered, so the scan
keeps the earliest-encountered maximal element (later elements replace
the best only on a strictly larger count). -/
def most_common1 (votes : List Text) : Option (Text × Nat) :=
  votes.foldl (mc_step (fun x => countOf votes x)) none

/-- `get_consensus_plate` (ocr.py lines 152-167): returns the consensus
plate of a track's buffer together with `(count / len(votes)) * 100`. -/
def get_consensus_plate (st : VoteMap) (track : String) : Option Text × ℚ :=
  let votes := st track
  if votes = [] then (none, 0)
  else
    match most_common1 votes with
    | none => (none, 0)
    | some pc => (some pc.1, ((pc.2 : ℚ) / (votes.length : ℚ)) * 100)

/-- Index of the first occurrence of `x` in `l` (length of `l` if absent):
the claims' notion of chronologically earliest occurrence. -/
def firstIdx (l : List Text) (x : Text) : Nat :=
  match l with
  | [] => 0
  | y :: ys => if y = x then 0 else firstIdx ys x + 1

/-! ## Plate region detection and cropping -/

/-- Python `int(...)` on a rational value: truncation toward zero. -/
def pyInt (q : ℚ) : ℤ := if 0 ≤ q then ⌊q⌋ else ⌈q⌉

/-- `detect_plate_region_heuristic` (ocr.py lines 182-207) on an image of
width `w` and height `h`: returns `(x, y, width, height)` =
`(int(w*0.15), int(h*0.25), int(w*0.7), int(h*0.5))`.  The float
constants are modelled as exact rationals; at the dimensions used by the
claims (200×100) the float and rational computations agree exactly. -/
def detect_plate_region_heuristic (w h : ℤ) : ℤ × ℤ × ℤ × ℤ :=
  (pyInt ((w : ℚ) * (15 / 100)), pyInt ((h : ℚ) * (25 / 100)),
   pyInt ((w : ℚ) * (7 / 10)), pyInt ((h : ℚ) * (5 / 10)))

/-- `crop_plate_region` (ocr.py lines 210-222): pad the region rectangle
`(rx, ry, rw, rh)` by `int(rw*padding)` / `int(rh*padding)` and clamp to
the `w`×`h` image; returns the slice bounds `(x1, y1, x2, y2)`. -/
def crop_plate_region (w h rx ry rw rh : ℤ) (padding : ℚ) : ℤ × ℤ × ℤ × ℤ :=
  let pad_x := pyInt ((rw : ℚ) * padding)
  let pad_y := pyInt ((rh : ℚ) * padding)
  (max 0 (rx - pad_x), max 0 (ry - pad_y),
   min w (rx + rw + pad_x), min h (ry + rh + pad_y))

/-- `crop_plate_region` of plate_detector.py (lines 152-176): same
clamping on a float bounding box `(x, y, bw, bh)`. -/
def crop_plate_region_detector (w h : ℤ) (x y bw bh : ℚ) (padding : ℚ) : ℤ × ℤ × ℤ × ℤ :=
  let pad_x := pyInt (bw * padding)
  let pad_y := pyInt (bh * padding)
  (max 0 (pyInt x - pad_x), max 0 (pyInt y - pad_y),
   min w (pyInt (x + bw) + pad_x), min h (pyInt (y + bh) + pad_y))

/-! ## The two-stage pipeline and the plate-base64 endpoint -/

/-- One request's external-engine behaviour, abstracted:
`gemini = none` models a missing `GEMINI_API_KEY` or an exception from
the Gemini call (both leave `plate = None`, ocr.py lines 352-382);
`gemini = some raw` is the text of the model response.  `regionFrags`
and `fullFrags` are what `reader.readtext` returns on the plate crop and
on the full image (pairs of raw text and confidence). -/
structure OcrInput where
  gemini : Option Text
  regionFrags : List (Text × ℚ)
  fullFrags : List (Text × ℚ)

/-- The Gemini acceptance test of the endpoint (ocr.py lines 371-378):
clean the response, require non-empty, not the `NONE` sentinel, length
at least 6, and a strictly positive intrinsic score. -/
def gemini_accepts (raw : Text) : Option Text :=
  let cleaned := cleanAlnum raw
  if cleaned ≠ [] ∧ cleaned ≠ String.toList "NONE" ∧ 6 ≤ cleaned.length then
    if 0 < score_plate_candidate cleaned then some cleaned else none
  else none

/-- One step of the candidate loop of `run_two_stage_ocr` (ocr.py lines
268-281): accumulator `(best_plate, best_score, best_conf)`; fragments
whose cleaned text is shorter than 4 are skipped; otherwise the combined
score `score_plate_candidate(cleaned) + conf * 30` competes for the
strictly largest value. -/
def scan_step (acc : Option Text × ℚ × ℚ) (f : Text × ℚ) : Option Text × ℚ × ℚ :=
  let cleaned := cleanAlnum f.1
  if 4 ≤ cleaned.length then
    let s := score_plate_candidate cleaned + f.2 * 30
    if acc.2.1 < s then (some cleaned, s, f.2) else acc
  else acc

/-- The candidate loop of `run_two_stage_ocr`, starting from
`best_plate = None, best_score = -100, best_conf = 0`. -/
def scan_candidates (frags : List (Text × ℚ)) : Option Text × ℚ × ℚ :=
  frags.foldl scan_step (none, -100, 0)

/-- The dictionary `run_two_stage_ocr` returns (minus diagnostics). -/
structure TwoStageResult where
  plate : Option Text
  confidence : ℤ
  score : ℚ
deriving DecidableEq

/-- `run_two_stage_ocr` (ocr.py lines 229-298): OCR the plate crop, fall
back to the full image only when the crop yields zero fragments, scan
the fragments for the best candidate, accept it only on a strictly
positive combined score, and record accepted plates of non-sentinel
tracks in the vote map.  Returns the result and the updated vote map. -/
def run_two_stage_ocr (inp : OcrInput) (track : String) (st : VoteMap) :
    TwoStageResult × VoteMap :=
  let results := if inp.regionFrags = [] then inp.fullFrags else inp.regionFrags
  if results = [] then
    ({ plate := none, confidence := 0, score := -100 }, st)
  else
    let b := scan_candidates results
    let valid := if 0 < b.2.1 then b.1 else none
    let st2 := match valid with
      | some p => if track = "manual-scan" then st else add_temporal_vote st track p
      | none => st
    ({ plate := valid,
       confidence := match valid with
         | some _ => pyInt (b.2.2 * 100)
         | none => 0,
       score := b.2.1 }, st2)

/-- The JSON body the endpoint returns (ocr.py lines 409-419). -/
structure Response where
  success : Bool
  trackId : String
  plate : Option Text
  confidence : ℤ
  instantPlate : Option Text
  instantConfidence : ℤ
  consensusVotes : ℚ
  engine : String
deriving DecidableEq

/-- The decision logic of `read_plate_from_base64` after image decoding
(ocr.py lines 346-419): try Gemini first; on failure or rejection fall
back to `run_two_stage_ocr`; record the accepted plate for non-sentinel
tracks; compute the temporal consensus when enabled and the track is not
the manual-scan sentinel; prefer the consensus whenever its vote
percentage is at least 50. -/
def read_plate_endpoint (inp : OcrInput) (track : String) (useTemporal : Bool)
    (st : VoteMap) : Response × VoteMap :=
  let gplate : Option Text :=
    match inp.gemini with
    | none => none
    | some raw => gemini_accepts raw
  let pec : Option Text × ℤ × String × VoteMap :=
    match gplate with
    | some p => (some p, 95, "Gemini Vision", st)
    | none =>
        let rs := run_two_stage_ocr inp track st
        (rs.1.plate, rs.1.confidence, "EasyOCR", rs.2)
  let plate := pec.1
  let confidence := pec.2.1
  let engine := pec.2.2.1
  let st1 := pec.2.2.2
  let st2 := match plate with
    | some p => if track = "manual-scan" then st1 else add_temporal_vote st1 track p
    | none => st1
  let cons := if useTemporal ∧ track ≠ "manual-scan"
    then get_consensus_plate st2 track else (none, 0)
  let finalPlate := if 50 ≤ cons.2 then cons.1 else plate
  let finalConf := match cons.1 with
    | some _ => pyInt cons.2
    | none => confidence
  ({ success := finalPlate.isSome, trackId := track, plate := finalPlate,
     confidence := finalConf, instantPlate := plate,
     instantConfidence := confidence, consensusVotes := cons.2,
     engine := engine }, st2)

/-- Exceptions of the endpoint's `try` block. -/
inductive PyExc where
  | httpExc (status : Nat) (detail : String)
  | otherExc (msg : String)
deriving DecidableEq

/-- Python `str(e)`: Starlette's `HTTPException.__str__` renders
`f"{status_code}: {detail}"`. -/
def pyStr : PyExc → String
  | .httpExc s d => toString s ++ ": " ++ d
  | .otherExc m => m

/-- What the HTTP caller observes. -/
inductive ReqOutcome where
  | httpError (status : Nat) (detail : String)
  | ok (r : Response)
deriving DecidableEq

/-- The body of the endpoint's `try` block (ocr.py lines 325-419):
a missing or empty `image` field raises `HTTPException(400)`; data that
fails base64/image decoding raises a library exception (modelled as
`otherExc "image decode failed"`, `decode = none`); otherwise the
pipeline runs.  `decode` abstracts the image-decoding collaborators. -/
def plate_base64_body (imageData : String) (decode : Option OcrInput)
    (track : String) (useTemporal : Bool) (st : VoteMap) :
    Except PyExc (Response × VoteMap) :=
  if imageData = "" then
    .error (.httpExc 400 "No image data provided")
  else
    match decode with
    | none => .error (.otherExc "image decode failed")
    | some inp => .ok (read_plate_endpoint inp track useTemporal st)

/-- The whole handler (ocr.py lines 315-425): the blanket
`except Exception as e` catches every exception raised in the body —
including the deliberately raised `HTTPException(400)` — and re-raises
`HTTPException(status_code=500, detail=str(e))`. -/
def plate_base64_handler (imageData : String) (decode : Option OcrInput)
    (track : String) (useTemporal : Bool) (st : VoteMap) : ReqOutcome × VoteMap :=
  match plate_base64_body imageData decode track useTemporal st with
  | .ok (r, st2) => (.ok r, st2)
  | .error e => (.httpError 500 (pyStr e), st)

/-- The spec's own consensus example: buffer
`["MH12AB4567", "MH12AB4567", "DL9CAB1234"]`. -/
def c1map : VoteMap := fun t =>
  if t = "car-1"
  then [String.toList "MH12AB4567", String.toList "MH12AB4567", String.toList "DL9CAB1234"]
  else []

/-- Fifteen distinct recorded entries. -/
def c2entries : List Text :=
  ["KA01AB0001", "KA01AB0002", "KA01AB0003", "KA01AB0004", "KA01AB0005",
   "KA01AB0006", "KA01AB0007", "KA01AB0008", "KA01AB0009", "KA01AB0010",
   "KA01AB0011", "KA01AB0012", "KA01AB0013", "KA01AB0014", "KA01AB0015"].map String.toList

/-- The spec's §8 fallback scenario: the primary engine answers `NONE`,
EasyOCR reads `MH12AB4567` at confidence 0.88 from the plate region. -/
def c5inp : OcrInput :=
  { gemini := some (String.toList "NONE")
  , regionFrags := [(String.toList "MH12AB4567", 88 / 100)]
  , fullFrags := [] }

/-- A track with two previous `DL9CAB1234` votes. -/
def c6map : VoteMap := fun t =>
  if t = "car-1" then [String.toList "DL9CAB1234", String.toList "DL9CAB1234"] else []

/-- A frame whose instantaneous (Gemini) reading is `MH12AB4567`. -/
def c6inp : OcrInput :=
  { gemini := some (String.toList "MH12AB4567"), regionFrags := [], fullFrags := [] }

/-- A fallback-path frame: no Gemini key, one region fragment. -/
def c10inp : OcrInput :=
  { gemini := none
  , regionFrags := [(String.toList "MH12AB4567", 88 / 100)]
  , fullFrags := [] }

/-! ## Theorems -/

/-! ### Helper lemmas about `lastN` and the vote buffer -/

theorem lastN_length (n : Nat) (l : List α) : (lastN n l).length = l.length - (l.length - n) := by
  simp [lastN]

theorem lastN_le_length (n : Nat) (l : List α) : (lastN n l).length ≤ n := by
  rw [lastN_length]; omega

theorem lastN_of_le (n : Nat) (l : List α) (h : l.length ≤ n) : lastN n l = l := by
  unfold lastN
  rw [Nat.sub_eq_zero_of_le h, List.drop_zero]

theorem lastN_append_lastN (n : Nat) (xs : List α) (e : α) :
    lastN n (lastN n xs ++ [e]) = lastN n (xs ++ [e]) := by
  rcases Nat.eq_zero_or_pos n with hn | hn
  · subst hn
    unfold lastN
    rw [List.drop_eq_nil_of_le (by simp), List.drop_eq_nil_of_le (by simp)]
  · rcases Nat.lt_or_ge xs.length n with hlt | hge
    · rw [lastN_of_le n xs (Nat.le_of_lt hlt)]
    · unfold lastN
      have hdlen : (xs.drop (xs.length - n)).length = n := by
        rw [List.length_drop]; omega
      have h1 : (xs.drop (xs.length - n) ++ [e]).length - n = 1 := by
        rw [List.length_append, hdlen]; simp
      have h2 : (xs ++ [e]).length - n = (xs.length - n) + 1 := by
        rw [List.length_append]; simp; omega
      rw [h1, h2]
      rw [List.drop_append_of_le_length (by rw [hdlen]; omega)]
      rw [List.drop_append_of_le_length (by omega)]
      rw [List.drop_drop]

theorem vote_append_eq_lastN (buf : List Text) (e : Text) :
    vote_append buf e = lastN TEMPORAL_WINDOW (buf ++ [e]) := by
  unfold vote_append
  by_cases h : TEMPORAL_WINDOW < (buf ++ [e]).length
  · rw [if_pos h]
  · rw [if_neg h, lastN_of_le _ _ (Nat.le_of_not_lt h)]

theorem add_temporal_vote_self (st : VoteMap) (track : String) (e : Text) (he : e ≠ []) :
    (add_temporal_vote st track e) track = vote_append (st track) e := by
  unfold add_temporal_vote
  rw [if_pos he]
  simp

theorem add_temporal_vote_other (st : VoteMap) (track t : String) (e : Text) (ht : t ≠ track) :
    (add_temporal_vote st track e) t = st t := by
  unfold add_temporal_vote
  by_cases he : e ≠ []
  · rw [if_pos he]; simp [ht]
  · rw [if_neg he]

/-- Folding a sequence of recorded (non-empty) candidates into the vote
map leaves the track's buffer equal to the last `TEMPORAL_WINDOW`
entries of the full recorded history, in order. -/
theorem foldl_add_temporal (track : String) :
    ∀ (entries : List Text) (st : VoteMap),
      (∀ e ∈ entries, e ≠ []) → (st track).length ≤ TEMPORAL_WINDOW →
      ((entries.foldl (fun s e => add_temporal_vote s track e) st) track)
        = lastN TEMPORAL_WINDOW (st track ++ entries) := by
  intro entries
  induction entries using List.reverseRecOn with
  | nil =>
      intro st _ hlen
      simp [lastN_of_le _ _ hlen]
  | append_singleton es e ih =>
      intro st hall hlen
      have hes : ∀ x ∈ es, x ≠ [] := fun x hx => hall x (by simp [hx])
      have he : e ≠ [] := hall e (by simp)
      rw [List.foldl_append]
      simp only [List.foldl_cons, List.foldl_nil]
      rw [add_temporal_vote_self _ _ _ he]
      rw [ih st hes hlen]
      rw [vote_append_eq_lastN]
      rw [lastN_append_lastN]
      rw [List.append_assoc]

/-! ### The maximal-multiplicity scan -/

theorem firstIdx_cons_self (x : Text) (l : List Text) : firstIdx (x :: l) x = 0 := by
  simp [firstIdx]

theorem firstIdx_append_of_not_mem (l₁ l₂ : List Text) (x : Text) (h : x ∉ l₁) :
    firstIdx (l₁ ++ l₂) x = l₁.length + firstIdx l₂ x := by
  induction l₁ with
  | nil => simp [firstIdx]
  | cons a l ih =>
      have hax : a ≠ x := by
        intro e
        exact h (by simp [e])
      have hxl : x ∉ l := fun hx => h (by simp [hx])
      have hstep : firstIdx (a :: (l ++ l₂)) x = firstIdx (l ++ l₂) x + 1 := by
        simp [firstIdx, hax]
      rw [List.cons_append, hstep, ih hxl, List.length_cons]
      omega

theorem mc_fold_aux (cnt : Text → Nat) :
    ∀ (l : List Text) (b : Text),
      ∃ p, l.foldl (mc_step cnt) (some (b, cnt b)) = some (p, cnt p)
        ∧ cnt b ≤ cnt p
        ∧ (∀ q ∈ l, cnt q ≤ cnt p)
        ∧ (p = b ∨ (cnt b < cnt p ∧
            ∃ pre suf, l = pre ++ p :: suf ∧ ∀ q ∈ pre, cnt q < cnt p)) := by
  intro l
  induction l with
  | nil =>
      intro b
      exact ⟨b, rfl, le_refl _, by simp, Or.inl rfl⟩
  | cons v l ih =>
      intro b
      by_cases h : cnt b < cnt v
      · have hstep : List.foldl (mc_step cnt) (some (b, cnt b)) (v :: l)
            = List.foldl (mc_step cnt) (some (v, cnt v)) l := by
          simp [mc_step, h]
        obtain ⟨p, hfold, hle, hmax, hdisc⟩ := ih v
        refine ⟨p, by rw [hstep]; exact hfold,
          le_of_lt (lt_of_lt_of_le h hle), ?_, ?_⟩
      
        · intro q hq
          rcases List.mem_cons.mp hq with rfl | hq
          · exact hle
          · exact hmax q hq
        · right
          rcases hdisc with rfl | ⟨hvp, pre, suf, hl, hpre⟩
          · exact ⟨h, [], l, rfl, by simp⟩
          · refine ⟨lt_trans h hvp, v :: pre, suf, by rw [hl]; simp, ?_⟩
            intro q hq
            rcases List.mem_cons.mp hq with rfl | hq
            · exact hvp
            · exact hpre q hq
      · have hstep : List.foldl (mc_step cnt) (some (b, cnt b)) (v :: l)
            = List.foldl (mc_step cnt) (some (b, cnt b)) l := by
          simp [mc_step, h]
        obtain ⟨p, hfold, hle, hmax, hdisc⟩ := ih b
        refine ⟨p, by rw [hstep]; exact hfold, hle, ?_, ?_⟩
        · intro q hq
          rcases List.mem_cons.mp hq with rfl | hq
          · exact le_trans (Nat.le_of_not_lt h) hle
          · exact hmax q hq
        · rcases hdisc with rfl | ⟨hbp, pre, suf, hl, hpre⟩
          · exact Or.inl rfl
          · refine Or.inr ⟨hbp, v :: pre, suf, by rw [hl]; simp, ?_⟩
            intro q hq
            rcases List.mem_cons.mp hq with rfl | hq
            · exact lt_of_le_of_lt (Nat.le_of_not_lt h) hbp
            · exact hpre q hq

/-- `most_common1` returns an element of maximal multiplicity whose first
occurrence is chronologically earliest among all equally-frequent
elements, paired with its multiplicity. -/
theorem most_common1_spec (votes : List Text) (hne : votes ≠ []) :
    ∃ p, most_common1 votes = some (p, countOf votes p)
      ∧ p ∈ votes
      ∧ (∀ q ∈ votes, countOf votes q ≤ countOf votes p)
      ∧ (∀ q ∈ votes, countOf votes q = countOf votes p →
          firstIdx votes p ≤ firstIdx votes q) := by
  match votes, hne with
  | v :: vs, _ =>
    obtain ⟨p, hfold, hle, hmax, hdisc⟩ :=
      mc_fold_aux (fun x => countOf (v :: vs) x) vs v
    refine ⟨p, ?_, ?_, ?_, ?_⟩
    · show List.foldl _ none (v :: vs) = _
      rw [List.foldl_cons]
      exact hfold
    · rcases hdisc with rfl | ⟨_, pre, suf, hvs, _⟩
      · exact List.mem_cons_self _ _
      · exact List.mem_cons_of_mem _ (by rw [hvs]; exact List.mem_append_right _ (List.mem_cons_self _ _))
    · intro q hq
      rcases List.mem_cons.mp hq with rfl | hq
      · exact hle
      · exact hmax q hq
    · intro q hq hcnt
      rcases hdisc with rfl | ⟨hvp, pre, suf, hvs, hpre⟩
      · rw [firstIdx_cons_self]
        exact Nat.zero_le _
      · have hqv : v ≠ q := by
          intro e
          rw [← e] at hcnt
          exact absurd hcnt (Nat.ne_of_lt hvp)
        have hqpre : q ∉ pre := by
          intro hm
          exact absurd hcnt (Nat.ne_of_lt (hpre q hm))
        have hpv : v ≠ p := by
          intro e
          rw [← e] at hvp
          exact lt_irrefl _ hvp
        have hppre : p ∉ pre := by
          intro hm
          exact lt_irrefl _ (hpre p hm)
        subst hvs
        have hrw : v :: (pre ++ p :: suf) = (v :: pre) ++ (p :: suf) := by simp
        rw [hrw]
        rw [firstIdx_append_of_not_mem _ _ p (by
          intro hm
          rcases List.mem_cons.mp hm with e | hm2
          · exact hpv e.symm
          · exact hppre hm2)]
        rw [firstIdx_append_of_not_mem _ _ q (by
          intro hm
          rcases List.mem_cons.mp hm with e | hm2
          · exact hqv e.symm
          · exact hqpre hm2)]
        rw [firstIdx_cons_self]
        omega

/-! ## Scorer lemmas -/

theorem score_short (t : Text) (h : (clean_plate t).length < 6) :
    score_plate_candidate t = -50 := by
  simp only [score_plate_candidate]
  rw [if_pos h]

theorem clean_plate_length_le (t : Text) : (clean_plate t).length ≤ t.length := by
  simp only [clean_plate]
  exact le_trans (List.length_filter_le _ _) (le_of_eq (List.length_map _ _))

theorem foldl_bad_words (cleaned : Text) :
    ∀ (ws : List Text) (s : ℚ),
      ws.foldl (fun acc w => if isSub w cleaned then acc - 100 else acc) s
        = s - 100 * ((ws.countP (fun w => isSub w cleaned) : Nat) : ℚ) := by
  intro ws
  induction ws with
  | nil =>
      intro s
      simp
  | cons w ws ih =>
      intro s
      by_cases h : isSub w cleaned = true
      · simp only [List.foldl_cons, if_pos h, ih, List.countP_cons, h, if_pos]
        push_cast
        ring
      · simp only [List.foldl_cons, if_neg h, ih, List.countP_cons, h, if_neg]
        push_cast
        ring

/-- C4: for every input whose normalized length is below 6 the scorer
returns −50 at once — no bonus or penalty below can apply — and hence
its result is at most −50 no matter which engine confidence a caller
would separately weight with (the `conf * 30` weighting is added outside
`score_plate_candidate`, cf. ocr.py line 274). -/
theorem c4_short_fragment_score (text : Text) (h : (clean_plate text).length < 6) :
    score_plate_candidate text = -50
    ∧ ∀ engineConfidence : ℚ, score_plate_candidate text ≤ -50 := by
  have hs := score_short text h
  exact ⟨hs, fun _ => le_of_eq hs⟩

/-- Witness for C4 at the concrete fragment `AB1`. -/
theorem c4_short_fragment_score_witness :
    (clean_plate (String.toList "AB1")).length < 6
    ∧ score_plate_candidate (String.toList "AB1") = -50 :=
  ⟨by decide, (c4_short_fragment_score (String.toList "AB1") (by decide)).1⟩

/-- C3 counterexample: on the input `CARCAR` (the blocklisted word `CAR`
occurring twice) the blocklist loop of the code subtracts only 100 —
`score("CARCAR") = 15 − 100 = −85` — whereas the claim's per-occurrence
reading would subtract 200 in this step. -/
theorem c3_per_occurrence_counterexample :
    bad_word_fold (clean_plate (String.toList "CARCAR")) 0 = -100
    ∧ per_occurrence_penalty (clean_plate (String.toList "CARCAR")) = -200
    ∧ score_plate_candidate (String.toList "CARCAR") = -85
    ∧ bad_word_fold (clean_plate (String.toList "CARCAR")) 0
        ≠ per_occurrence_penalty (clean_plate (String.toList "CARCAR")) := by
  refine ⟨?_, ?_, ?_, ?_⟩ <;> with_unfolding_all decide

/-- C3 as amended: the scorer subtracts 100 for each *distinct*
configured blocklist word that occurs as a substring of the normalized
text; distinct words stack (two distinct words lose 200), but repeated
occurrences of one and the same word are only counted once. -/
theorem c3_distinct_word_penalty (text : Text) (h : 6 ≤ (clean_plate text).length) :
    score_plate_candidate text
      = length_bonus (clean_plate text) + composition_bonus (clean_plate text)
        + grammar_bonus (clean_plate text) + region_code_bonus (clean_plate text)
        - 100 * ((bad_words.countP (fun w => isSub w (clean_plate text)) : Nat) : ℚ)
        + track_label_penalty (clean_plate text) := by
  simp only [score_plate_candidate]
  rw [if_neg (Nat.not_lt.mpr h)]
  simp only [bad_word_fold]
  rw [foldl_bad_words]

/-- Witness for C3's amended claim at `CARBUSAB`, which contains the two
distinct blocklisted words `CAR` and `BUS` and loses 200 points. -/
theorem c3_distinct_word_penalty_witness :
    6 ≤ (clean_plate (String.toList "CARBUSAB")).length
    ∧ score_plate_candidate (String.toList "CARBUSAB")
        = length_bonus (clean_plate (String.toList "CARBUSAB"))
          + composition_bonus (clean_plate (String.toList "CARBUSAB"))
          + grammar_bonus (clean_plate (String.toList "CARBUSAB"))
          + region_code_bonus (clean_plate (String.toList "CARBUSAB"))
          - 100 * ((bad_words.countP (fun w => isSub w (clean_plate (String.toList "CARBUSAB"))) : Nat) : ℚ)
          + track_label_penalty (clean_plate (String.toList "CARBUSAB"))
    ∧ score_plate_candidate (String.toList "CARBUSAB") = -185
    ∧ (bad_words.countP (fun w => isSub w (clean_plate (String.toList "CARBUSAB"))) : Nat) = 2 :=
  ⟨by decide, c3_distinct_word_penalty (String.toList "CARBUSAB") (by decide),
   by with_unfolding_all decide, by decide⟩

/-! ## Claim theorems: temporal voting -/

/-- C1: for a non-empty vote buffer the consensus is an element of
maximal multiplicity; on ties it is the element whose first occurrence
in the buffer is chronologically earliest; the confidence equals
`100 * voteCount / totalVotes` with `totalVotes` the buffer length; an
empty (or absent) buffer yields no plate text. -/
theorem c1_temporal_consensus (st : VoteMap) (track : String) :
    (st track = [] → get_consensus_plate st track = (none, 0))
    ∧ (st track ≠ [] →
        ∃ p, (get_consensus_plate st track).1 = some p
          ∧ p ∈ st track
          ∧ (∀ q ∈ st track, countOf (st track) q ≤ countOf (st track) p)
          ∧ (∀ q ∈ st track, countOf (st track) q = countOf (st track) p →
              firstIdx (st track) p ≤ firstIdx (st track) q)
          ∧ (get_consensus_plate st track).2
              = 100 * ((countOf (st track) p : Nat) : ℚ) / (((st track).length : Nat) : ℚ)) := by
  constructor
  · intro h
    simp only [get_consensus_plate]
    rw [if_pos h]
  · intro h
    obtain ⟨p, heq, hmem, hmax, htie⟩ := most_common1_spec (st track) h
    have hgc : get_consensus_plate st track
        = (some p, ((countOf (st track) p : Nat) : ℚ) / (((st track).length : Nat) : ℚ) * 100) := by
      simp only [get_consensus_plate]
      rw [if_neg h, heq]
    refine ⟨p, by rw [hgc], hmem, hmax, htie, by rw [hgc]; ring⟩

/-- Witness for C1: the example buffer is non-empty; the consensus is
`MH12AB4567` with 2 of 3 votes, i.e. confidence 200/3 ≈ 66.7. -/
theorem c1_temporal_consensus_witness :
    c1map "car-1" ≠ []
    ∧ (∃ p, (get_consensus_plate c1map "car-1").1 = some p
        ∧ p ∈ c1map "car-1"
        ∧ (∀ q ∈ c1map "car-1", countOf (c1map "car-1") q ≤ countOf (c1map "car-1") p)
        ∧ (∀ q ∈ c1map "car-1", countOf (c1map "car-1") q = countOf (c1map "car-1") p →
            firstIdx (c1map "car-1") p ≤ firstIdx (c1map "car-1") q)
        ∧ (get_consensus_plate c1map "car-1").2
            = 100 * ((countOf (c1map "car-1") p : Nat) : ℚ) / (((c1map "car-1").length : Nat) : ℚ))
    ∧ (get_consensus_plate c1map "car-1").1 = some (String.toList "MH12AB4567")
    ∧ (get_consensus_plate c1map "car-1").2 = 200 / 3 :=
  ⟨by decide, (c1_temporal_consensus c1map "car-1").2 (by decide),
   by with_unfolding_all decide, by with_unfolding_all decide⟩

/-- C2: after any sequence of recorded candidates, a track's buffer is
exactly the last `TEMPORAL_WINDOW` (= 10) recorded entries in insertion
order — the buffer never exceeds the window and the oldest entries are
discarded first. -/
theorem c2_vote_window_fifo (track : String) (st : VoteMap) (entries : List Text)
    (hall : ∀ e ∈ entries, e ≠ []) (hlen : (st track).length ≤ TEMPORAL_WINDOW) :
    ((entries.foldl (fun s e => add_temporal_vote s track e) st) track)
      = lastN TEMPORAL_WINDOW (st track ++ entries)
    ∧ ((entries.foldl (fun s e => add_temporal_vote s track e) st) track).length
      ≤ TEMPORAL_WINDOW := by
  have h := foldl_add_temporal track entries st hall hlen
  exact ⟨h, by rw [h]; exact lastN_le_length _ _⟩

/-- Witness for C2: inserting 15 entries into an empty buffer of window
10 leaves exactly the last 10 entries, oldest first. -/
theorem c2_vote_window_fifo_witness :
    (∀ e ∈ c2entries, e ≠ [])
    ∧ (((fun _ => []) : VoteMap) "car-2").length ≤ TEMPORAL_WINDOW
    ∧ ((c2entries.foldl (fun s e => add_temporal_vote s "car-2" e) (fun _ => [])) "car-2")
        = lastN TEMPORAL_WINDOW (((fun _ => []) : VoteMap) "car-2" ++ c2entries)
    ∧ lastN TEMPORAL_WINDOW c2entries = c2entries.drop 5 :=
  ⟨by decide, by decide,
   (c2_vote_window_fifo "car-2" (fun _ => []) c2entries (by decide) (by decide)).1,
   by decide⟩

/-! ## Multi-engine reader lemmas -/

theorem gemini_accepts_some (raw p : Text) (h : gemini_accepts raw = some p) :
    p = cleanAlnum raw ∧ 6 ≤ p.length ∧ 0 < score_plate_candidate p := by
  simp only [gemini_accepts] at h
  by_cases h1 : cleanAlnum raw ≠ [] ∧ cleanAlnum raw ≠ String.toList "NONE"
      ∧ 6 ≤ (cleanAlnum raw).length
  · rw [if_pos h1] at h
    by_cases h2 : 0 < score_plate_candidate (cleanAlnum raw)
    · rw [if_pos h2] at h
      have hp : p = cleanAlnum raw := (Option.some.injEq _ _).mp h.symm
      subst hp
      exact ⟨rfl, h1.2.2, h2⟩
    · rw [if_neg h2] at h
      cases h
  · rw [if_neg h1] at h
    cases h

theorem gemini_accepts_pos_iff (raw : Text) :
    (gemini_accepts raw).isSome ↔ 0 < score_plate_candidate (cleanAlnum raw) := by
  have key : 0 < score_plate_candidate (cleanAlnum raw) →
      cleanAlnum raw ≠ [] ∧ cleanAlnum raw ≠ String.toList "NONE"
        ∧ 6 ≤ (cleanAlnum raw).length := by
    intro hpos
    have hlen6 : 6 ≤ (clean_plate (cleanAlnum raw)).length := by
      by_contra hc
      rw [score_short (cleanAlnum raw) (Nat.lt_of_not_le hc)] at hpos
      norm_num at hpos
    have hlen : 6 ≤ (cleanAlnum raw).length :=
      le_trans hlen6 (clean_plate_length_le _)
    refine ⟨?_, ?_, hlen⟩
    · intro he
      rw [he] at hlen
      simp at hlen
    · intro he
      rw [he] at hpos
      have hnone : score_plate_candidate (String.toList "NONE") = -50 := by
        with_unfolding_all decide
      rw [hnone] at hpos
      norm_num at hpos
  constructor
  · intro hs
    simp only [gemini_accepts] at hs
    by_cases h1 : cleanAlnum raw ≠ [] ∧ cleanAlnum raw ≠ String.toList "NONE"
        ∧ 6 ≤ (cleanAlnum raw).length
    · rw [if_pos h1] at hs
      by_cases h2 : 0 < score_plate_candidate (cleanAlnum raw)
      · exact h2
      · rw [if_neg h2] at hs
        simp at hs
    · rw [if_neg h1] at hs
      simp at hs
  · intro h2
    simp only [gemini_accepts]
    rw [if_pos (key h2), if_pos h2]
    simp

/-- C5: (a) the primary engine's single returned string is accepted
exactly when its intrinsic score — confidence weighting excluded — is
strictly positive (the source's extra guards, non-emptiness, the `NONE`
sentinel and the length-6 floor, are all implied by positivity);
(b) the fallback engine label `EasyOCR` is produced exactly when the
primary engine is unavailable, errored, returned `NONE`, or failed the
positivity check; (c) when the located plate region produced at least
one fragment, the full-image fragments are irrelevant to the whole
endpoint — the full image is re-read only on zero region fragments. -/
theorem c5_engine_policy (inp : OcrInput) (track : String) (ut : Bool) (st : VoteMap)
    (raw : Text) :
    ((gemini_accepts raw).isSome ↔ 0 < score_plate_candidate (cleanAlnum raw))
    ∧ ((read_plate_endpoint inp track ut st).1.engine = "EasyOCR"
        ↔ inp.gemini.bind gemini_accepts = none)
    ∧ (inp.regionFrags ≠ [] → ∀ l,
        read_plate_endpoint { inp with fullFrags := l } track ut st
          = read_plate_endpoint inp track ut st) := by
  refine ⟨gemini_accepts_pos_iff raw, ?_, ?_⟩
  · cases hg : inp.gemini with
    | none =>
        simp [read_plate_endpoint, hg]
    | some r =>
        cases hga : gemini_accepts r with
        | none => simp [read_plate_endpoint, hg, hga]
        | some p => simp [read_plate_endpoint, hg, hga]
  · intro h l
    have hr : run_two_stage_ocr { inp with fullFrags := l } track st
        = run_two_stage_ocr inp track st := by
      simp only [run_two_stage_ocr]
      simp [h]
    simp only [read_plate_endpoint, hr]

/-- Witness for C5: in the scenario the fallback engine label is
reported, the selected plate is `MH12AB4567`, and replacing the
full-image fragments changes nothing because the region pass was
non-empty. -/
theorem c5_engine_policy_witness :
    c5inp.regionFrags ≠ []
    ∧ read_plate_endpoint { c5inp with fullFrags := [(String.toList "JUNK", 1)] }
        "car-1" true (fun _ => [])
        = read_plate_endpoint c5inp "car-1" true (fun _ => [])
    ∧ ((read_plate_endpoint c5inp "car-1" true (fun _ => [])).1.engine = "EasyOCR"
        ↔ c5inp.gemini.bind gemini_accepts = none)
    ∧ (read_plate_endpoint c5inp "car-1" true (fun _ => [])).1.engine = "EasyOCR"
    ∧ (read_plate_endpoint c5inp "car-1" true (fun _ => [])).1.instantPlate
        = some (String.toList "MH12AB4567") :=
  ⟨by decide,
   (c5_engine_policy c5inp "car-1" true (fun _ => []) []).2.2 (by decide)
     [(String.toList "JUNK", 1)],
   (c5_engine_policy c5inp "car-1" true (fun _ => []) []).2.1,
   by with_unfolding_all decide,
   by with_unfolding_all decide⟩

/-- C6: with temporal voting enabled and a non-sentinel track id, the
endpoint reports the temporal consensus whenever the consensus
confidence (computed over the post-request vote map, which the endpoint
also returns) is at least 50 percent, and otherwise reports the
instantaneous single-frame candidate. -/
theorem c6_consensus_over_instant (inp : OcrInput) (track : String) (st : VoteMap)
    (htrack : track ≠ "manual-scan") :
    (50 ≤ (get_consensus_plate ((read_plate_endpoint inp track true st).2) track).2 →
      (read_plate_endpoint inp track true st).1.plate
        = (get_consensus_plate ((read_plate_endpoint inp track true st).2) track).1)
    ∧ ((get_consensus_plate ((read_plate_endpoint inp track true st).2) track).2 < 50 →
      (read_plate_endpoint inp track true st).1.plate
        = (read_plate_endpoint inp track true st).1.instantPlate) := by
  simp only [read_plate_endpoint]
  simp only [if_pos (show True ∧ track ≠ "manual-scan" from ⟨trivial, htrack⟩)]
  constructor
  · intro h50
    rw [if_pos h50]
  · intro h50
    rw [if_neg (not_le.mpr h50)]

/-- Witness for C6: after this frame the buffer holds
`[DL9CAB1234, DL9CAB1234, MH12AB4567]`; the consensus `DL9CAB1234` has
confidence 200/3 ≥ 50 and overrides the instantaneous `MH12AB4567`. -/
theorem c6_consensus_over_instant_witness :
    ("car-1" : String) ≠ "manual-scan"
    ∧ 50 ≤ (get_consensus_plate ((read_plate_endpoint c6inp "car-1" true c6map).2) "car-1").2
    ∧ (read_plate_endpoint c6inp "car-1" true c6map).1.plate
        = (get_consensus_plate ((read_plate_endpoint c6inp "car-1" true c6map).2) "car-1").1
    ∧ (read_plate_endpoint c6inp "car-1" true c6map).1.plate
        = some (String.toList "DL9CAB1234")
    ∧ (read_plate_endpoint c6inp "car-1" true c6map).1.instantPlate
        = some (String.toList "MH12AB4567") :=
  ⟨by decide,
   by with_unfolding_all decide,
   (c6_consensus_over_instant c6inp "car-1" c6map (by decide)).1
     (by with_unfolding_all decide),
   by with_unfolding_all decide,
   by with_unfolding_all decide⟩

/-- C9: a request for the sentinel track id `manual-scan` leaves the
whole vote map untouched — no buffer is created or mutated, for
`manual-scan` or any other id — and the endpoint reports exactly the
instantaneous single-frame candidate.  The same exclusion holds inside
the two-stage pipeline. -/
theorem c9_manual_scan_excluded (inp : OcrInput) (ut : Bool) (st : VoteMap) :
    (read_plate_endpoint inp "manual-scan" ut st).2 = st
    ∧ (read_plate_endpoint inp "manual-scan" ut st).1.plate
        = (read_plate_endpoint inp "manual-scan" ut st).1.instantPlate
    ∧ (run_two_stage_ocr inp "manual-scan" st).2 = st := by
  have h3 : (run_two_stage_ocr inp "manual-scan" st).2 = st := by
    simp only [run_two_stage_ocr]
    repeat' split
    all_goals first | rfl | exact absurd trivial (by assumption)
  refine ⟨?_, ?_, h3⟩
  · simp only [read_plate_endpoint]
    repeat' split
    all_goals first | rfl | exact h3 | exact absurd trivial (by assumption)
  · norm_num [read_plate_endpoint]

/-! ## Double-vote lemmas -/

theorem scan_foldl_len (frags : List (Text × ℚ)) :
    ∀ (acc : Option Text × ℚ × ℚ),
      (∀ t, acc.1 = some t → 4 ≤ t.length) →
      ∀ p, (frags.foldl scan_step acc).1 = some p → 4 ≤ p.length := by
  induction frags with
  | nil =>
      intro acc h p hp
      exact h p hp
  | cons f fs ih =>
      intro acc h p hp
      rw [List.foldl_cons] at hp
      refine ih (scan_step acc f) ?_ p hp
      intro t ht
      simp only [scan_step] at ht
      by_cases h4 : 4 ≤ (cleanAlnum f.1).length
      · rw [if_pos h4] at ht
        by_cases hlt : acc.2.1 < score_plate_candidate (cleanAlnum f.1) + f.2 * 30
        · rw [if_pos hlt] at ht
          simp only [Option.some.injEq] at ht
          exact ht ▸ h4
        · rw [if_neg hlt] at ht
          exact h t ht
      · rw [if_neg h4] at ht
        exact h t ht

theorem run_two_stage_plate_len (inp : OcrInput) (track : String) (st : VoteMap)
    (p : Text) (hp : (run_two_stage_ocr inp track st).1.plate = some p) :
    4 ≤ p.length := by
  simp only [run_two_stage_ocr] at hp
  by_cases hres : (if inp.regionFrags = [] then inp.fullFrags else inp.regionFrags)
      = ([] : List (Text × ℚ))
  · rw [if_pos hres] at hp
    simp at hp
  · rw [if_neg hres] at hp
    simp only at hp
    by_cases h0 : 0 < (scan_candidates
        (if inp.regionFrags = [] then inp.fullFrags else inp.regionFrags)).2.1
    · rw [if_pos h0] at hp
      exact scan_foldl_len _ (none, -100, 0) (fun t ht => nomatch ht) p hp
    · rw [if_neg h0] at hp
      simp at hp

theorem run_two_stage_state_of_plate (inp : OcrInput) (track : String) (st : VoteMap)
    (p : Text) (htrack : track ≠ "manual-scan")
    (hp : (run_two_stage_ocr inp track st).1.plate = some p) :
    (run_two_stage_ocr inp track st).2 = add_temporal_vote st track p := by
  simp only [run_two_stage_ocr] at hp ⊢
  by_cases hres : (if inp.regionFrags = [] then inp.fullFrags else inp.regionFrags)
      = ([] : List (Text × ℚ))
  · rw [if_pos hres] at hp
    simp at hp
  · rw [if_neg hres] at hp ⊢
    simp only at hp ⊢
    rw [hp]
    simp [htrack]

theorem endpoint_state_easyocr (inp : OcrInput) (track : String) (ut : Bool) (st : VoteMap)
    (p : Text) (htrack : track ≠ "manual-scan")
    (hg : inp.gemini.bind gemini_accepts = none)
    (hp : (run_two_stage_ocr inp track st).1.plate = some p) :
    (read_plate_endpoint inp track ut st).2
      = add_temporal_vote ((run_two_stage_ocr inp track st).2) track p := by
  cases hgem : inp.gemini with
  | none =>
      simp only [read_plate_endpoint, hgem, hp]
      rw [if_neg htrack]
  | some raw =>
      have hga : gemini_accepts raw = none := by
        rw [hgem] at hg
        simpa using hg
      simp only [read_plate_endpoint, hgem, hga, hp]
      rw [if_neg htrack]

theorem endpoint_state_gemini (inp : OcrInput) (track : String) (ut : Bool) (st : VoteMap)
    (p : Text) (htrack : track ≠ "manual-scan")
    (hg : inp.gemini.bind gemini_accepts = some p) :
    (read_plate_endpoint inp track ut st).2 = add_temporal_vote st track p := by
  cases hgem : inp.gemini with
  | none =>
      rw [hgem] at hg
      simp at hg
  | some raw =>
      have hga : gemini_accepts raw = some p := by
        rw [hgem] at hg
        simpa using hg
      simp only [read_plate_endpoint, hgem, hga]
      rw [if_neg htrack]

/-- C10: on the EasyOCR fallback path an accepted candidate of a
non-sentinel track is appended to the track's buffer twice in one
request — once inside `run_two_stage_ocr` and once again in the
endpoint — so a single frame contributes two votes; on the Gemini path
the candidate is appended exactly once. -/
theorem c10_double_vote (inp : OcrInput) (track : String) (ut : Bool) (st : VoteMap)
    (p : Text) (htrack : track ≠ "manual-scan") :
    (inp.gemini.bind gemini_accepts = none →
      (run_two_stage_ocr inp track st).1.plate = some p →
      (read_plate_endpoint inp track ut st).2 track
        = lastN TEMPORAL_WINDOW (st track ++ [p, p]))
    ∧ (inp.gemini.bind gemini_accepts = some p →
      (read_plate_endpoint inp track ut st).2 track
        = lastN TEMPORAL_WINDOW (st track ++ [p])) := by
  constructor
  · intro hg hp
    have hlen := run_two_stage_plate_len inp track st p hp
    have hne : p ≠ [] := by
      intro he
      rw [he] at hlen
      simp at hlen
    rw [endpoint_state_easyocr inp track ut st p htrack hg hp]
    rw [run_two_stage_state_of_plate inp track st p htrack hp]
    rw [add_temporal_vote_self _ _ _ hne]
    rw [add_temporal_vote_self _ _ _ hne]
    rw [vote_append_eq_lastN, vote_append_eq_lastN]
    rw [lastN_append_lastN]
    rw [List.append_assoc]
    rfl
  · intro hg
    have hlen : 6 ≤ p.length := by
      cases hgem : inp.gemini with
      | none =>
          rw [hgem] at hg
          simp at hg
      | some raw =>
          rw [hgem] at hg
          simp only [Option.some_bind] at hg
          exact (gemini_accepts_some raw p hg).2.1
    have hne : p ≠ [] := by
      intro he
      rw [he] at hlen
      simp at hlen
    rw [endpoint_state_gemini inp track ut st p htrack hg]
    rw [add_temporal_vote_self _ _ _ hne]
    rw [vote_append_eq_lastN]

/-- Witness for C10: starting from an empty buffer, one fallback-path
frame leaves two copies of the accepted plate in the track's buffer. -/
theorem c10_double_vote_witness :
    ("car-3" : String) ≠ "manual-scan"
    ∧ (run_two_stage_ocr c10inp "car-3" (fun _ => [])).1.plate
        = some (String.toList "MH12AB4567")
    ∧ (read_plate_endpoint c10inp "car-3" true (fun _ => [])).2 "car-3"
        = lastN TEMPORAL_WINDOW (((fun _ => []) : VoteMap) "car-3"
            ++ [String.toList "MH12AB4567", String.toList "MH12AB4567"])
    ∧ (read_plate_endpoint c10inp "car-3" true (fun _ => [])).2 "car-3"
        = [String.toList "MH12AB4567", String.toList "MH12AB4567"] :=
  ⟨by decide,
   by with_unfolding_all decide,
   (c10_double_vote c10inp "car-3" true (fun _ => []) (String.toList "MH12AB4567")
      (by decide)).1 rfl (by with_unfolding_all decide),
   by with_unfolding_all decide⟩

/-- C7 (code bug): the endpoint's `try` block raises
`HTTPException(status_code=400)` for a missing or empty image payload,
but the blanket `except Exception` re-raises it as
`HTTPException(500, str(e))`, so the caller observes HTTP status 500 —
a server error, not the claimed client-error status — for both the
empty-payload and the undecodable-payload request; the OCR pipeline is
never entered (the vote map is returned unchanged). -/
theorem c7_input_error_maps_to_500 (decode : Option OcrInput) (track : String)
    (ut : Bool) (st : VoteMap) :
    plate_base64_handler "" decode track ut st
      = (ReqOutcome.httpError 500 "400: No image data provided", st)
    ∧ plate_base64_handler "not-an-image" none track ut st
      = (ReqOutcome.httpError 500 "image decode failed", st) :=
  ⟨rfl, rfl⟩

/-- C8: cropping clamps the padded rectangle to the image bounds — the
slice bounds satisfy `0 ≤ x1`, `x2 ≤ w`, `0 ≤ y1`, `y2 ≤ h` for every
image size, region rectangle and non-negative padding, in both the
route's and the detector's crop helper — and the heuristic region of a
200×100 crop is the rectangle `x ∈ [30, 170]`, `y ∈ [25, 75]`, whose
default-padded crop `(16, 20, 184, 80)` stays inside the image. -/
theorem c8_crop_in_bounds (w h rx ry rw rh : ℤ) (x y bw bh pad : ℚ)
    (hw : 0 < w) (hh : 0 < h) (hpad : 0 ≤ pad) :
    (0 ≤ (crop_plate_region w h rx ry rw rh pad).1
      ∧ 0 ≤ (crop_plate_region w h rx ry rw rh pad).2.1
      ∧ (crop_plate_region w h rx ry rw rh pad).2.2.1 ≤ w
      ∧ (crop_plate_region w h rx ry rw rh pad).2.2.2 ≤ h)
    ∧ (0 ≤ (crop_plate_region_detector w h x y bw bh pad).1
      ∧ 0 ≤ (crop_plate_region_detector w h x y bw bh pad).2.1
      ∧ (crop_plate_region_detector w h x y bw bh pad).2.2.1 ≤ w
      ∧ (crop_plate_region_detector w h x y bw bh pad).2.2.2 ≤ h)
    ∧ detect_plate_region_heuristic 200 100 = (30, 25, 140, 50)
    ∧ crop_plate_region 200 100 30 25 140 50 (1 / 10) = (16, 20, 184, 80) := by
  refine ⟨⟨?_, ?_, ?_, ?_⟩, ⟨?_, ?_, ?_, ?_⟩, ?_, ?_⟩
  · exact le_max_left 0 _
  · exact le_max_left 0 _
  · exact min_le_left w _
  · exact min_le_left h _
  · exact le_max_left 0 _
  · exact le_max_left 0 _
  · exact min_le_left w _
  · exact min_le_left h _
  · with_unfolding_all decide
  · with_unfolding_all decide

/-- Witness for C8 at the 200×100 scenario of the claim. -/
theorem c8_crop_in_bounds_witness :
    (0 : ℤ) < 200 ∧ (0 : ℤ) < 100 ∧ (0 : ℚ) ≤ 1 / 10
    ∧ (0 ≤ (crop_plate_region 200 100 30 25 140 50 (1 / 10)).1
      ∧ 0 ≤ (crop_plate_region 200 100 30 25 140 50 (1 / 10)).2.1
      ∧ (crop_plate_region 200 100 30 25 140 50 (1 / 10)).2.2.1 ≤ 200
      ∧ (crop_plate_region 200 100 30 25 140 50 (1 / 10)).2.2.2 ≤ 100) :=
  ⟨by decide, by decide, by with_unfolding_all decide,
   (c8_crop_in_bounds 200 100 30 25 140 50 0 0 0 0 (1 / 10)
      (by decide) (by decide) (by with_unfolding_all decide)).1⟩
